import Mathlib

/-!
Verification of the resource-section analyzer (`src/peres.c`).

The resource tree is the binary (child, sibling) linked structure described by
the node model: a C `pe_resource_node_t *` is either NULL (`RTree.nil`) or a
node carrying its variant data plus the `childNode` and `nextNode` links.
External collaborators (offset translation, bounds checking, the well-known
type table, the filesystem) are passed in as a context record, mirroring the
interfaces the C code consumes from libpe.
-/

namespace Peres

/-- Variant tag of a resource node (`LIBPE_RDT_*`). -/
inductive NodeType where
  | resourceDirectory
  | directoryEntry
  | dataString
  | dataEntry
deriving DecidableEq

/-- The `u0` union of `IMAGE_RESOURCE_DIRECTORY_ENTRY`: a 31-bit
`NameOffset` bitfield plus the `NameIsString` flag bit. -/
structure DirectoryEntryU0 where
  nameOffset : Nat
  nameIsString : Bool
deriving DecidableEq

/-- The full 32-bit `u0.Name` view of the union: the 31-bit offset with the
string flag as the high bit. -/
def DirectoryEntryU0.name (u : DirectoryEntryU0) : Nat :=
  u.nameOffset + (if u.nameIsString then 2 ^ 31 else 0)

/-- `IMAGE_RESOURCE_DATA_ENTRY`. -/
structure DataEntryRaw where
  offsetToData : Nat
  size : Nat
  codePage : Nat
  reserved : Nat
deriving DecidableEq

/-- `IMAGE_RESOURCE_DIRECTORY`. -/
structure ResourceDirectoryRaw where
  characteristics : Nat
  timeDateStamp : Nat
  majorVersion : Nat
  minorVersion : Nat
  numberOfNamedEntries : Nat
  numberOfIdEntries : Nat
deriving DecidableEq

/-- `IMAGE_RESOURCE_DATA_STRING_U`: a length-prefixed wide string; the
character payload is modelled as the list of (already narrowed) characters. -/
structure ResDataString where
  length : Nat
  chars : List Char
deriving DecidableEq

/-- One row of the read-only well-known-type table (`pe_resource_entry_info_t`):
display name, file extension, category directory name. -/
structure ResourceEntryInfo where
  name : String
  extension : String
  dir_name : String
deriving DecidableEq

/-- Per-node data of `pe_resource_node_t`.  The C union `raw` is modelled by
carrying all four variant records; only the one selected by `type` is ever
consulted.  `parents` models the upward-navigation capability used by
`pe_resource_find_parent_node_by_type_and_level`: the map from a directory
level to the `u0` field of the ancestor `DirectoryEntry` at that level. -/
structure NodeData where
  type : NodeType
  dirLevel : Nat
  resourceDirectory : ResourceDirectoryRaw
  directoryEntry : DirectoryEntryU0
  dataString : ResDataString
  dataEntry : DataEntryRaw
  parents : List (Nat × DirectoryEntryU0)
deriving DecidableEq

/-- Modelled from the spec: `pe_resource_find_parent_node_by_type_and_level`
(libpe collaborator, "parent lookup via upward walk") restricted to
`LIBPE_RDT_DIRECTORY_ENTRY`, as the node-model capability of locating the
ancestor directory entry at a given level; `none` models a NULL result. -/
def pe_resource_find_parent_node_by_type_and_level (d : NodeData) (level : Nat) :
    Option DirectoryEntryU0 :=
  d.parents.lookup level

/-- A resource tree: `nil` is the NULL pointer, a node carries its data and
the `childNode` and `nextNode` links. -/
inductive RTree where
  | nil : RTree
  | node (data : NodeData) (childNode nextNode : RTree) : RTree
deriving DecidableEq

/-- `peres_show_nodes`: depth-first pre-order dump traversal (node, then
`childNode`, then `nextNode`); modelled as the ordered list of nodes visited
(each visit emits that node's report block via `peres_show_node`). -/
def peres_show_nodes : RTree → List NodeData
  | .nil => []
  | .node d c n => d :: (peres_show_nodes c ++ peres_show_nodes n)

/-- `peres_stats_t`. -/
structure peres_stats_t where
  totalCount : Nat
  totalResourceDirectory : Nat
  totalDirectoryEntry : Nat
  totalDataString : Nat
  totalDataEntry : Nat
deriving DecidableEq

/-- `peres_generate_stats`: increment `totalCount` for the node, increment the
per-variant counter selected by its type, then recurse into child and sibling
(the C guards `if (node->childNode)` are equivalent to recursing into NULL,
which leaves the accumulator unchanged). -/
def peres_generate_stats : peres_stats_t → RTree → peres_stats_t
  | s, .nil => s
  | s, .node d c n =>
    let s1 : peres_stats_t :=
      ⟨s.totalCount + 1, s.totalResourceDirectory, s.totalDirectoryEntry,
        s.totalDataString, s.totalDataEntry⟩
    let s2 : peres_stats_t :=
      match d.type with
      | .resourceDirectory =>
        ⟨s1.totalCount, s1.totalResourceDirectory + 1, s1.totalDirectoryEntry,
          s1.totalDataString, s1.totalDataEntry⟩
      | .directoryEntry =>
        ⟨s1.totalCount, s1.totalResourceDirectory, s1.totalDirectoryEntry + 1,
          s1.totalDataString, s1.totalDataEntry⟩
      | .dataString =>
        ⟨s1.totalCount, s1.totalResourceDirectory, s1.totalDirectoryEntry,
          s1.totalDataString + 1, s1.totalDataEntry⟩
      | .dataEntry =>
        ⟨s1.totalCount, s1.totalResourceDirectory, s1.totalDirectoryEntry,
          s1.totalDataString, s1.totalDataEntry + 1⟩
    let s3 := peres_generate_stats s2 c
    peres_generate_stats s3 n

/-- `peres_show_stats`: zero-initialise the accumulator and run the stats
traversal (the emission of the five report lines reads these fields). -/
def peres_show_stats (t : RTree) : peres_stats_t :=
  peres_generate_stats ⟨0, 0, 0, 0, 0⟩ t

/-- Number of visited nodes of a given variant, in dump order. -/
def countType (ty : NodeType) (t : RTree) : Nat :=
  ((peres_show_nodes t).filter (fun d => d.type == ty)).length

theorem generate_stats_totalCount (t : RTree) : ∀ s : peres_stats_t,
    (peres_generate_stats s t).totalCount = s.totalCount + (peres_show_nodes t).length := by
  induction t with
  | nil => intro s; simp [peres_generate_stats, peres_show_nodes]
  | node d c n ihc ihn =>
    intro s
    simp only [peres_generate_stats, peres_show_nodes, List.length_cons, List.length_append]
    rw [ihn, ihc]
    cases d.type <;> simp <;> omega

theorem generate_stats_rd (t : RTree) : ∀ s : peres_stats_t,
    (peres_generate_stats s t).totalResourceDirectory
      = s.totalResourceDirectory + countType .resourceDirectory t := by
  induction t with
  | nil => intro s; simp [peres_generate_stats, countType, peres_show_nodes]
  | node d c n ihc ihn =>
    intro s
    simp only [peres_generate_stats]
    rw [ihn, ihc]
    cases h : d.type <;>
      simp [countType, peres_show_nodes, List.filter_cons, List.filter_append, h] <;> omega

theorem generate_stats_de (t : RTree) : ∀ s : peres_stats_t,
    (peres_generate_stats s t).totalDirectoryEntry
      = s.totalDirectoryEntry + countType .directoryEntry t := by
  induction t with
  | nil => intro s; simp [peres_generate_stats, countType, peres_show_nodes]
  | node d c n ihc ihn =>
    intro s
    simp only [peres_generate_stats]
    rw [ihn, ihc]
    cases h : d.type <;>
      simp [countType, peres_show_nodes, List.filter_cons, List.filter_append, h] <;> omega

theorem generate_stats_ds (t : RTree) : ∀ s : peres_stats_t,
    (peres_generate_stats s t).totalDataString
      = s.totalDataString + countType .dataString t := by
  induction t with
  | nil => intro s; simp [peres_generate_stats, countType, peres_show_nodes]
  | node d c n ihc ihn =>
    intro s
    simp only [peres_generate_stats]
    rw [ihn, ihc]
    cases h : d.type <;>
      simp [countType, peres_show_nodes, List.filter_cons, List.filter_append, h] <;> omega

theorem generate_stats_dent (t : RTree) : ∀ s : peres_stats_t,
    (peres_generate_stats s t).totalDataEntry
      = s.totalDataEntry + countType .dataEntry t := by
  induction t with
  | nil => intro s; simp [peres_generate_stats, countType, peres_show_nodes]
  | node d c n ihc ihn =>
    intro s
    simp only [peres_generate_stats]
    rw [ihn, ihc]
    cases h : d.type <;>
      simp [countType, peres_show_nodes, List.filter_cons, List.filter_append, h] <;> omega

theorem length_eq_sum_countType (l : List NodeData) :
    l.length
      = (l.filter (fun d => d.type == NodeType.resourceDirectory)).length
        + (l.filter (fun d => d.type == NodeType.directoryEntry)).length
        + (l.filter (fun d => d.type == NodeType.dataString)).length
        + (l.filter (fun d => d.type == NodeType.dataEntry)).length := by
  induction l with
  | nil => simp
  | cons d l ih =>
    cases h : d.type <;> simp [List.filter_cons, h, ih] <;> omega

/-- External-collaborator context (`pe_ctx_t` plus libpe services, at the
interface the spec gives for them):
`rva2ofs` is `pe_rva2ofs` (relative virtual address to file offset);
`canRead off len` is `pe_can_read(ctx, map_addr + off, len)`, the bounds check
of `[off, off+len)` against the mapped range;
`resStrings off` models reading an `IMAGE_RESOURCE_DATA_STRING_U` at
`resource_base_ptr + off` — `none` when `pe_can_read` fails there;
`entryLookup` is `pe_resource_entry_info_lookup` over the read-only
well-known-type table;
`fopenOk path` tells whether `fopen(path, "wb+")` succeeds;
`readFixedFileInfo off` reads the `VS_FIXEDFILEINFO` record mapped at
`map_addr + off` (only consulted after a successful bounds check). -/
structure VSFixedFileInfo where
  dwFileVersionMS : Nat
  dwFileVersionLS : Nat
  dwProductVersionMS : Nat
  dwProductVersionLS : Nat
deriving DecidableEq

structure PeCtx where
  rva2ofs : Nat → Nat
  canRead : Nat → Nat → Bool
  resStrings : Nat → Option ResDataString
  entryLookup : Nat → Option ResourceEntryInfo
  fopenOk : String → Bool
  readFixedFileInfo : Nat → VSFixedFileInfo

/-- `const char *g_resourceDir = "resources";` -/
def g_resourceDir : String := "resources"

/-- Modelled from the spec: the fixed path-buffer capacity `MAX_PATH` used for
`char ...[MAX_PATH]` buffers (defined in `common.h`, which is not under
`src/`; the spec only fixes that these buffers have a constant capacity). -/
def MAX_PATH : Nat := 256

/-- Rendering of `snprintf(.., "%04x ", n)`: lowercase hex, zero-padded to
width 4, then a space (`Nat.toDigits 16` yields lowercase hex digits, most
significant first, exactly like `%x`). -/
def hex04 (n : Nat) : List Char :=
  let s := Nat.toDigits 16 n
  List.replicate (4 - s.length) '0' ++ s

/-- Result of `peres_build_node_filename`: the C function fills a caller
buffer; `crash` models the undefined behaviour of dereferencing a NULL
ancestor-lookup result (line 274) or of the `output[length-1]` store when the
buffer is still empty after the loop. -/
inductive BuildResult where
  | crash
  | ok (path : String)
deriving DecidableEq

/-- Loop body of `peres_build_node_filename` for levels `level ..
level + fuel - 1`, accumulating the output buffer contents `acc`
(capacity `output_size`):
for each level, look up the ancestor directory entry (a NULL result is
dereferenced — `crash`); for a string-form name read the counted string
(`none` = failed bounds check: warn and return the buffer as accumulated,
without the final separator strip); otherwise format either the well-known
type name (level 1, found in the table) or the id as `%04x`; append with
`strncat(output, piece, output_size - strlen(output) - 1)`.  After the last
level, the store of a NUL at `output[strlen(output)-1]` strips the trailing
separator (an empty buffer makes that store an out-of-bounds write: `crash`). -/
def peres_build_loop (ctx : PeCtx) (node : NodeData) (output_size : Nat) :
    Nat → Nat → List Char → BuildResult
  | 0, _, acc =>
    if acc.length = 0 then .crash else .ok (String.mk acc.dropLast)
  | fuel + 1, level, acc =>
    match pe_resource_find_parent_node_by_type_and_level node level with
    | none => .crash
    | some de =>
      if de.nameIsString then
        match ctx.resStrings de.nameOffset with
        | none => .ok (String.mk acc)
        | some ds =>
          let string_size := min (MAX_PATH - 2) ds.length
          let piece := ds.chars.take string_size ++ [' ']
          peres_build_loop ctx node output_size fuel (level + 1)
            (acc ++ piece.take (output_size - acc.length - 1))
      else
        let piece :=
          match ctx.entryLookup de.nameOffset with
          | some info =>
            if level = 1 then (info.name.data ++ [' ']).take (MAX_PATH - 1)
            else (hex04 de.nameOffset ++ [' ']).take (MAX_PATH - 1)
          | none => (hex04 de.nameOffset ++ [' ']).take (MAX_PATH - 1)
        peres_build_loop ctx node output_size fuel (level + 1)
          (acc ++ piece.take (output_size - acc.length - 1))

/-- `peres_build_node_filename`: run the level loop for
`level = 1 .. node.dirLevel` over an initially empty (zeroed) buffer. -/
def peres_build_node_filename (ctx : PeCtx) (node : NodeData) (output_size : Nat) :
    BuildResult :=
  peres_build_loop ctx node output_size node.dirLevel 1 []

/-- Outcome of `peres_save_resource` on one node.
`assertFail`: one of the entry `assert`s fired;
`crash`: NULL dereference (unchecked level-1 ancestor lookup, or a NULL
result from `peres_build_node_filename`'s unchecked lookups);
`boundsFail`: the `pe_can_read` range check failed (diagnostic, no file);
`noParent`: the checked level-2 ancestor lookup returned NULL (diagnostic,
no file); `openFail`: `fopen` failed (silent, no file);
`saved`: the payload was written to `dirName/fileName`. -/
inductive SaveOutcome where
  | assertFail
  | crash
  | boundsFail
  | noParent (dirName : String)
  | openFail (dirName : String) (fileName : String)
  | saved (dirName : String) (fileName : String)
deriving DecidableEq

/-- Effects of one `peres_save_resource` call: its outcome plus the
directories whose existence it ensured (`stat` + `mkdir` pairs, in order). -/
structure SaveResult where
  outcome : SaveOutcome
  ensuredDirs : List String
deriving DecidableEq

/-- The `entry_info != NULL ? entry_info->extension : ".bin"` ternary. -/
def peres_extension : Option ResourceEntryInfo → String
  | some info => info.extension
  | none => ".bin"

/-- The category directory: `snprintf(dirName, 100, "%s/%s", g_resourceDir,
entry_info->dir_name)` when the level-1 type id is in the table, else
`snprintf(dirName, 100, "%s", g_resourceDir)` (truncation to 99 chars). -/
def peres_dir_name (entry_info : Option ResourceEntryInfo) : String :=
  match entry_info with
  | some info => String.mk ((g_resourceDir ++ "/" ++ info.dir_name).data.take 99)
  | none => String.mk (g_resourceDir.data.take 99)

/-- `snprintf(relativeFileName, MAX_PATH, "%s/%s", dirName, file)`
(truncation to `MAX_PATH - 1` chars). -/
def peres_relative_file_name (dirName file : String) : String :=
  String.mk ((dirName ++ "/" ++ file).data.take (MAX_PATH - 1))

/-- `peres_save_resource`: entry assertions; translate and bounds-check the
data range; ensure the base directory; unchecked level-1 ancestor lookup;
category directory from the well-known-type table; ensure it; checked
level-2 ancestor lookup; derive the file name (named mode: hierarchical path
from `peres_build_node_filename`; default mode: the level-2 numeric id),
append the extension; open and write. -/
def peres_save_resource (ctx : PeCtx) (node : NodeData) (namedExtract : Bool) :
    SaveResult :=
  if ¬ (node.type = NodeType.dataEntry ∧ node.dirLevel = 3) then ⟨.assertFail, []⟩
  else
    let entry := node.dataEntry
    let raw_data_offset := ctx.rva2ofs entry.offsetToData
    let raw_data_size := entry.size
    if ¬ (ctx.canRead raw_data_offset raw_data_size) then ⟨.boundsFail, []⟩
    else
      match pe_resource_find_parent_node_by_type_and_level node 1 with
      | none => ⟨.crash, [g_resourceDir]⟩
      | some folder =>
        let entry_info := ctx.entryLookup folder.name
        let dirName := peres_dir_name entry_info
        match pe_resource_find_parent_node_by_type_and_level node 2 with
        | none => ⟨.noParent dirName, [g_resourceDir, dirName]⟩
        | some name_node =>
          if namedExtract then
            match peres_build_node_filename ctx node MAX_PATH with
            | .crash => ⟨.crash, [g_resourceDir, dirName]⟩
            | .ok fn =>
              let file := fn ++ peres_extension entry_info
              if ctx.fopenOk (peres_relative_file_name dirName file)
              then ⟨.saved dirName file, [g_resourceDir, dirName]⟩
              else ⟨.openFail dirName file, [g_resourceDir, dirName]⟩
          else
            let file := Nat.repr name_node.nameOffset ++ peres_extension entry_info
            if ctx.fopenOk (peres_relative_file_name dirName file)
            then ⟨.saved dirName file, [g_resourceDir, dirName]⟩
            else ⟨.openFail dirName file, [g_resourceDir, dirName]⟩

/-- Category-directory component of an outcome, when one was derived. -/
def SaveOutcome.dirPart : SaveOutcome → Option String
  | .noParent dn => some dn
  | .openFail dn _ => some dn
  | .saved dn _ => some dn
  | _ => none

/-- Path of the file written on disk by this outcome, if any. -/
def SaveOutcome.written : SaveOutcome → Option String
  | .saved dn f => some (peres_relative_file_name dn f)
  | _ => none

/-- Number of `stderr` diagnostics the outcome emits (`fprintf` calls). -/
def SaveOutcome.diagnostics : SaveOutcome → Nat
  | .boundsFail => 1
  | .noParent _ => 1
  | _ => 0

/-- `peres_save_all_resources`: pre-order traversal; on each node whose type
is `DataEntry` and whose `dirLevel` is 3, invoke `peres_save_resource`; then
recurse into child and sibling.  The first component is the tree as left
behind by the traversal (every node is read through a `const` pointer and
never written), the second the per-invocation results in traversal order. -/
def peres_save_all_resources (ctx : PeCtx) (namedExtract : Bool) :
    RTree → RTree × List SaveResult
  | .nil => (.nil, [])
  | .node d c n =>
    let here :=
      if d.type = NodeType.dataEntry ∧ d.dirLevel = 3
      then [peres_save_resource ctx d namedExtract] else []
    let pc := peres_save_all_resources ctx namedExtract c
    let pn := peres_save_all_resources ctx namedExtract n
    (.node d pc.1 pn.1, here ++ pc.2 ++ pn.2)

/-- Modelled from the spec: the well-known VERSION resource type id
(`RT_VERSION`, from the Windows headers shipped with libpe). -/
def RT_VERSION : Nat := 16

/-- `peres_contains_version_node`: a level-1 directory entry whose numeric
type id equals `RT_VERSION`. -/
def peres_contains_version_node (d : NodeData) : Bool :=
  d.type == NodeType.directoryEntry && d.dirLevel == 1
    && d.directoryEntry.nameOffset == RT_VERSION

/-- `peres_is_version_node`: any data-entry node. -/
def peres_is_version_node (d : NodeData) : Bool :=
  d.type == NodeType.dataEntry

/-- Modelled from the spec: `pe_resource_search_nodes` (libpe collaborator),
the generic predicate search — collect, in the same pre-order as the dump
traversal, every node of the subtree satisfying the predicate; each result
item is a reference to the node (kept here with its links, since the caller
traverses onward from it). -/
def pe_resource_search_nodes (p : NodeData → Bool) : RTree → List RTree
  | .nil => []
  | .node d c n =>
    (if p d then [RTree.node d c n] else [])
      ++ pe_resource_search_nodes p c ++ pe_resource_search_nodes p n

/-- `snprintf(value, MAX_MSG, "%u.%u.%u.%u", (MS & 0xffff0000) >> 16,
MS & 0x0000ffff, (LS & 0xffff0000) >> 16, LS & 0x0000ffff)`. -/
def peres_version_string (ms ls : Nat) : String :=
  Nat.repr ((ms &&& 0xffff0000) >>> 16) ++ "." ++ Nat.repr (ms &&& 0x0000ffff)
    ++ "." ++ Nat.repr ((ls &&& 0xffff0000) >>> 16) ++ "."
    ++ Nat.repr (ls &&& 0x0000ffff)

/-- Result of the inner (leaf) loop of `peres_show_version`: report lines
emitted, warnings emitted, and whether the loop aborted the whole function
(`return` on a failed bounds check). -/
structure LeafDecodeResult where
  lines : List (String × String)
  warnings : Nat
  aborted : Bool
deriving DecidableEq

/-- Observable result of `peres_show_version`: report lines, warnings,
number of `pe_resources_dealloc_node_search_result` calls performed, and
whether the function returned early from inside the loops. -/
structure VersionOutput where
  lines : List (String × String)
  warnings : Nat
  deallocCount : Nat
  abortedEarly : Bool
deriving DecidableEq

/-- Inner `LL_FOREACH` of `peres_show_version` over the data-entry leaves
found under one version subtree: translate the leaf's data offset, skip the
fixed 32-byte header, bounds-check; on failure emit the warning and return
from the whole function (`aborted = true`); otherwise read the
`VS_FIXEDFILEINFO` record and emit the two version lines. -/
def peres_show_version_leaves (ctx : PeCtx) : List RTree → LeafDecodeResult
  | [] => ⟨[], 0, false⟩
  | t :: rest =>
    match t with
    | .nil => peres_show_version_leaves ctx rest
    | .node d _ _ =>
      let data_offset := ctx.rva2ofs d.dataEntry.offsetToData
      let data_size := d.dataEntry.size
      if ¬ (ctx.canRead (32 + data_offset) data_size) then ⟨[], 1, true⟩
      else
        let info := ctx.readFixedFileInfo (32 + data_offset)
        let here :=
          [("File Version",
             peres_version_string info.dwFileVersionMS info.dwFileVersionLS),
           ("Product Version",
             peres_version_string info.dwProductVersionMS info.dwProductVersionLS)]
        let r := peres_show_version_leaves ctx rest
        ⟨here ++ r.lines, r.warnings, r.aborted⟩

/-- Outer `LL_FOREACH` of `peres_show_version` over the matched version
subtrees: run the inner search and leaf loop; an abort from the inner loop
returns from the whole function, skipping the release of the inner result
list (and everything after); otherwise release the inner list and continue. -/
def peres_show_version_parents (ctx : PeCtx) : List RTree → VersionOutput
  | [] => ⟨[], 0, 0, false⟩
  | t :: rest =>
    let inner := peres_show_version_leaves ctx
      (pe_resource_search_nodes peres_is_version_node t)
    if inner.aborted then ⟨inner.lines, inner.warnings, 0, true⟩
    else
      let r := peres_show_version_parents ctx rest
      ⟨inner.lines ++ r.lines, inner.warnings + r.warnings,
        1 + r.deallocCount, r.abortedEarly⟩

/-- `peres_show_version`: search for the version subtree roots, loop over
them, and (unless an early `return` happened) release the outer result
list. -/
def peres_show_version (ctx : PeCtx) (t : RTree) : VersionOutput :=
  let parents := pe_resource_search_nodes peres_contains_version_node t
  let r := peres_show_version_parents ctx parents
  if r.abortedEarly then r
  else ⟨r.lines, r.warnings, r.deallocCount + 1, false⟩

/-- Claim C1: for every resource tree, the `totalCount` computed by the stats
traversal equals the sum of the four per-variant counts, and also equals the
number of nodes visited by the dump traversal (`peres_show_nodes`). -/
theorem stats_totalCount_eq_sum_and_dump_count (t : RTree) :
    (peres_show_stats t).totalCount
      = (peres_show_stats t).totalResourceDirectory
        + (peres_show_stats t).totalDirectoryEntry
        + (peres_show_stats t).totalDataString
        + (peres_show_stats t).totalDataEntry
    ∧ (peres_show_stats t).totalCount = (peres_show_nodes t).length := by
  constructor
  · simp only [peres_show_stats, generate_stats_totalCount, generate_stats_rd,
      generate_stats_de, generate_stats_ds, generate_stats_dent]
    simpa [countType] using length_eq_sum_countType (peres_show_nodes t)
  · simp [peres_show_stats, generate_stats_totalCount]

/-! Decimal rendering: `Nat.repr` is injective.  Proved by a parse-back
round trip over the fuelled core loop `Nat.toDigitsCore`. -/

/-- Numeric value of a decimal digit character. -/
def decDigit (c : Char) : Nat := c.toNat - 48

/-- Parse a decimal digit string, most significant first, onto accumulator
`a`. -/
def decValFrom (a : Nat) (l : List Char) : Nat :=
  l.foldl (fun acc c => acc * 10 + decDigit c) a

theorem digitChar_decDigit : ∀ n : Nat, n < 10 → decDigit (Nat.digitChar n) = n := by
  decide

theorem toDigitsCore_decVal :
    ∀ (fuel n : Nat) (ds : List Char), n < fuel →
      decValFrom 0 (Nat.toDigitsCore 10 fuel n ds) = decValFrom n ds := by
  intro fuel
  induction fuel with
  | zero => intro n ds h; exact absurd h (Nat.not_lt_zero n)
  | succ f ih =>
    intro n ds h
    simp only [Nat.toDigitsCore]
    by_cases h10 : n / 10 = 0
    · rw [if_pos h10]
      have hn : n < 10 := (Nat.div_eq_zero_iff (by norm_num)).mp h10
      have hmod : n % 10 = n := Nat.mod_eq_of_lt hn
      simp [decValFrom, hmod, digitChar_decDigit n hn]
    · rw [if_neg h10]
      have hpos : 0 < n := by
        rcases Nat.eq_zero_or_pos n with h0 | h0
        · exact absurd (by simp [h0]) h10
        · exact h0
      have hdiv : n / 10 < n := Nat.div_lt_self hpos (by norm_num)
      have hlt : n / 10 < f := by omega
      rw [ih (n / 10) (Nat.digitChar (n % 10) :: ds) hlt]
      have hm : n % 10 < 10 := Nat.mod_lt n (by norm_num)
      simp [decValFrom, digitChar_decDigit (n % 10) hm]
      have hx : n / 10 * 10 + n % 10 = n := by omega
      rw [hx]

theorem decVal_toDigits (n : Nat) : decValFrom 0 (Nat.toDigits 10 n) = n := by
  unfold Nat.toDigits
  rw [toDigitsCore_decVal (n + 1) n [] (Nat.lt_succ_self n)]
  rfl

theorem nat_repr_injective {m n : Nat} (h : Nat.repr m = Nat.repr n) : m = n := by
  have hd : Nat.toDigits 10 m = Nat.toDigits 10 n := by
    have := congrArg String.data h
    simpa [Nat.repr, List.asString] using this
  calc m = decValFrom 0 (Nat.toDigits 10 m) := (decVal_toDigits m).symm
    _ = decValFrom 0 (Nat.toDigits 10 n) := by rw [hd]
    _ = n := decVal_toDigits n

/-! The `(x & 0xffff0000) >> 16` form the code uses equals the plain
`x >> 16` of the spec for 32-bit field values. -/

theorem and_high_mask_shift (x : Nat) (h : x < 2 ^ 32) :
    (x &&& 0xffff0000) >>> 16 = x >>> 16 := by
  apply Nat.eq_of_testBit_eq
  intro i
  simp only [Nat.testBit_shiftRight, Nat.testBit_and]
  by_cases hi : i < 16
  · have hbit : Nat.testBit 0xffff0000 (16 + i) = true := by
      interval_cases i <;> decide
    simp [hbit]
  · have h32 : 2 ^ 32 ≤ 2 ^ (16 + i) := Nat.pow_le_pow_right (by norm_num) (by omega)
    have hx : Nat.testBit x (16 + i) = false :=
      Nat.testBit_lt_two_pow (Nat.lt_of_lt_of_le h h32)
    simp [hx]

/-- Claim C2: the version decoder renders each (MS, LS) pair of 32-bit fields
as the dotted string with components `MS >> 16`, `MS & 0xFFFF`, `LS >> 16`,
`LS & 0xFFFF`; in particular, for `dwFileVersionMS = 0x00010002` and
`dwFileVersionLS = 0x00030004` the emitted string is `"1.2.3.4"`. -/
theorem version_string_renders_dotted_quad (ms ls : Nat)
    (hms : ms < 2 ^ 32) (hls : ls < 2 ^ 32) :
    peres_version_string ms ls
      = Nat.repr (ms >>> 16) ++ "." ++ Nat.repr (ms &&& 0xffff) ++ "."
        ++ Nat.repr (ls >>> 16) ++ "." ++ Nat.repr (ls &&& 0xffff)
    ∧ peres_version_string 0x00010002 0x00030004 = "1.2.3.4" := by
  refine ⟨?_, by decide⟩
  rw [peres_version_string, and_high_mask_shift ms hms, and_high_mask_shift ls hls]

/-- Witness for C2 at the concrete record of the claim. -/
theorem version_string_witness :
    (0x00010002 : Nat) < 2 ^ 32 ∧ (0x00030004 : Nat) < 2 ^ 32
    ∧ (peres_version_string 0x00010002 0x00030004
        = Nat.repr ((0x00010002 : Nat) >>> 16) ++ "."
          ++ Nat.repr ((0x00010002 : Nat) &&& 0xffff) ++ "."
          ++ Nat.repr ((0x00030004 : Nat) >>> 16) ++ "."
          ++ Nat.repr ((0x00030004 : Nat) &&& 0xffff)
       ∧ peres_version_string 0x00010002 0x00030004 = "1.2.3.4") :=
  ⟨by norm_num, by norm_num,
    version_string_renders_dotted_quad 0x00010002 0x00030004 (by norm_num) (by norm_num)⟩

/-! Whole-tree extraction. -/

theorem save_all_fst (ctx : PeCtx) (m : Bool) (t : RTree) :
    (peres_save_all_resources ctx m t).1 = t := by
  induction t with
  | nil => rfl
  | node d c n ihc ihn => simp [peres_save_all_resources, ihc, ihn]

theorem save_all_snd (ctx : PeCtx) (m : Bool) (t : RTree) :
    (peres_save_all_resources ctx m t).2
      = ((peres_show_nodes t).filter
          (fun d => decide (d.type = NodeType.dataEntry ∧ d.dirLevel = 3))).map
          (fun d => peres_save_resource ctx d m) := by
  induction t with
  | nil => rfl
  | node d c n ihc ihn =>
    by_cases h : d.type = NodeType.dataEntry ∧ d.dirLevel = 3 <;>
      simp [peres_save_all_resources, peres_show_nodes, List.filter_cons, h, ihc, ihn]

/-- Claim C9: whole-tree extraction never mutates the resource tree — the
per-variant statistics computed on the tree left behind by extraction are the
statistics of the original tree. -/
theorem extraction_preserves_stats (ctx : PeCtx) (m : Bool) (t : RTree) :
    peres_show_stats (peres_save_all_resources ctx m t).1 = peres_show_stats t := by
  rw [save_all_fst]

theorem save_resource_guarded_no_assertFail (ctx : PeCtx) (d : NodeData) (m : Bool)
    (h : d.type = NodeType.dataEntry ∧ d.dirLevel = 3) :
    (peres_save_resource ctx d m).outcome ≠ SaveOutcome.assertFail := by
  rw [peres_save_resource, if_neg (not_not_intro h)]
  intro hc
  repeat' split at hc
  all_goals simp [apply_ite SaveResult.outcome, ite_eq_iff] at hc

/-- Claim C10: the guard of the whole-tree traversal invokes the saver exactly
on the nodes satisfying its entry assertions (non-NULL node — a `node`
constructor — of variant `DataEntry` at `dirLevel` 3), so the assertions
never fire on that path: no invocation ends in `assertFail`. -/
theorem save_all_guard_matches_assertions (ctx : PeCtx) (m : Bool) (t : RTree) :
    (peres_save_all_resources ctx m t).2
      = ((peres_show_nodes t).filter
          (fun d => decide (d.type = NodeType.dataEntry ∧ d.dirLevel = 3))).map
          (fun d => peres_save_resource ctx d m)
    ∧ ((peres_save_all_resources ctx m t).2.all
        (fun r => r.outcome != SaveOutcome.assertFail)) = true := by
  refine ⟨save_all_snd ctx m t, ?_⟩
  rw [save_all_snd, List.all_eq_true]
  intro r hr
  simp only [List.mem_map] at hr
  obtain ⟨d, hd, rfl⟩ := hr
  have hf := List.of_mem_filter hd
  simp only [decide_eq_true_eq] at hf
  simpa using save_resource_guarded_no_assertFail ctx d m hf

/-- Claim C5: for a `DataEntry` node at level 3 whose translated byte range
fails the bounds check, the saver emits exactly one diagnostic and writes no
file; and whole-tree extraction is the independent per-node map over the
guarded nodes, so every other node's extraction is unaffected. -/
theorem bounds_failure_skips_node_only (ctx : PeCtx) (d : NodeData) (m : Bool)
    (hT : d.type = NodeType.dataEntry) (hL : d.dirLevel = 3)
    (hR : ctx.canRead (ctx.rva2ofs d.dataEntry.offsetToData) d.dataEntry.size = false) :
    (peres_save_resource ctx d m).outcome = SaveOutcome.boundsFail
    ∧ (peres_save_resource ctx d m).outcome.diagnostics = 1
    ∧ (peres_save_resource ctx d m).outcome.written = none
    ∧ ∀ t : RTree, (peres_save_all_resources ctx m t).2
        = ((peres_show_nodes t).filter
            (fun e => decide (e.type = NodeType.dataEntry ∧ e.dirLevel = 3))).map
            (fun e => peres_save_resource ctx e m) := by
  have hout : peres_save_resource ctx d m = ⟨SaveOutcome.boundsFail, []⟩ := by
    rw [peres_save_resource, if_neg (not_not_intro ⟨hT, hL⟩)]
    simp [hR]
  refine ⟨by rw [hout], by rw [hout]; rfl, by rw [hout]; rfl, fun t => save_all_snd ctx m t⟩

/-! Concrete contexts and nodes used by witnesses and counterexamples. -/

/-- A context whose bounds check always fails. -/
def ctxNoRead : PeCtx :=
  ⟨fun o => o, fun _ _ => false, fun _ => none, fun _ => none,
    fun _ => false, fun _ => ⟨0, 0, 0, 0⟩⟩

/-- A context where every read succeeds, the well-known-type table has no
entry for any id, and every `fopen` succeeds. -/
def ctxSave : PeCtx :=
  ⟨fun o => o, fun _ _ => true, fun _ => none, fun _ => none,
    fun _ => true, fun _ => ⟨0, 0, 0, 0⟩⟩

/-- A level-3 data-entry node with numeric ancestors at levels 1, 2, 3
(type id 5, name id 7, language id 9). -/
def dataNode0 : NodeData :=
  ⟨NodeType.dataEntry, 3, ⟨0, 0, 0, 0, 0, 0⟩, ⟨0, false⟩, ⟨0, []⟩, ⟨0, 4, 0, 0⟩,
    [(1, ⟨5, false⟩), (2, ⟨7, false⟩), (3, ⟨9, false⟩)]⟩

/-- Like `dataNode0` but with name id 8 at level 2. -/
def dataNode1 : NodeData :=
  ⟨NodeType.dataEntry, 3, ⟨0, 0, 0, 0, 0, 0⟩, ⟨0, false⟩, ⟨0, []⟩, ⟨0, 4, 0, 0⟩,
    [(1, ⟨5, false⟩), (2, ⟨8, false⟩), (3, ⟨9, false⟩)]⟩

/-- Witness for C5: `dataNode0` under the all-reads-fail context. -/
theorem bounds_failure_witness :
    dataNode0.type = NodeType.dataEntry ∧ dataNode0.dirLevel = 3
    ∧ ctxNoRead.canRead (ctxNoRead.rva2ofs dataNode0.dataEntry.offsetToData)
        dataNode0.dataEntry.size = false
    ∧ ((peres_save_resource ctxNoRead dataNode0 false).outcome = SaveOutcome.boundsFail
        ∧ (peres_save_resource ctxNoRead dataNode0 false).outcome.diagnostics = 1
        ∧ (peres_save_resource ctxNoRead dataNode0 false).outcome.written = none
        ∧ ∀ t : RTree, (peres_save_all_resources ctxNoRead false t).2
            = ((peres_show_nodes t).filter
                (fun e => decide (e.type = NodeType.dataEntry ∧ e.dirLevel = 3))).map
                (fun e => peres_save_resource ctxNoRead e false)) :=
  ⟨rfl, rfl, rfl, bounds_failure_skips_node_only ctxNoRead dataNode0 false rfl rfl rfl⟩

/-! Path-builder lemmas: the level loop can only crash through a NULL
ancestor-lookup result (or the final strip on an empty buffer, which cannot
happen once anything was appended). -/

theorem take_ne_nil_of_ne_nil (l : List Char) (n : Nat) (hl : l ≠ []) (hn : n ≠ 0) :
    l.take n ≠ [] := by
  simp [List.take_eq_nil_iff, hl, hn]

theorem build_loop_ne_crash_of_ne_nil (ctx : PeCtx) (d : NodeData) :
    ∀ (fuel level : Nat) (acc : List Char), acc ≠ [] →
      (∀ i, i < fuel →
        (pe_resource_find_parent_node_by_type_and_level d (level + i)).isSome = true) →
      peres_build_loop ctx d MAX_PATH fuel level acc ≠ BuildResult.crash := by
  intro fuel
  induction fuel with
  | zero =>
    intro level acc hacc _
    have hlen : acc.length ≠ 0 := by simpa [List.length_eq_zero] using hacc
    simp [peres_build_loop, hlen]
  | succ f ih =>
    intro level acc hacc hfind
    have h0 : (pe_resource_find_parent_node_by_type_and_level d level).isSome = true := by
      simpa using hfind 0 (Nat.succ_pos f)
    obtain ⟨de, hde⟩ := Option.isSome_iff_exists.mp h0
    have hshift : ∀ i, i < f →
        (pe_resource_find_parent_node_by_type_and_level d (level + 1 + i)).isSome = true := by
      intro i hi
      have hx : level + 1 + i = level + (i + 1) := by omega
      rw [hx]
      exact hfind (i + 1) (by omega)
    have happ : ∀ p : List Char, acc ++ p ≠ [] := by
      intro p hx
      exact hacc (List.append_eq_nil.mp hx).1
    simp only [peres_build_loop, hde]
    cases hstr : de.nameIsString with
    | true =>
      simp only [if_pos rfl]
      cases hrs : ctx.resStrings de.nameOffset with
      | none => simp
      | some ds => exact ih (level + 1) _ (happ _) hshift
    | false =>
      rw [if_neg (by decide : ¬(false = true))]
      exact ih (level + 1) _ (happ _) hshift

theorem build_loop_start_ne_crash (ctx : PeCtx) (d : NodeData)
    (fuel level : Nat) (hfuel : 1 ≤ fuel)
    (hfind : ∀ i, i < fuel →
      (pe_resource_find_parent_node_by_type_and_level d (level + i)).isSome = true) :
    peres_build_loop ctx d MAX_PATH fuel level [] ≠ BuildResult.crash := by
  obtain ⟨f, rfl⟩ : ∃ f, fuel = f + 1 := ⟨fuel - 1, by omega⟩
  have h0 : (pe_resource_find_parent_node_by_type_and_level d level).isSome = true := by
    simpa using hfind 0 (Nat.succ_pos f)
  obtain ⟨de, hde⟩ := Option.isSome_iff_exists.mp h0
  have hshift : ∀ i, i < f →
      (pe_resource_find_parent_node_by_type_and_level d (level + 1 + i)).isSome = true := by
    intro i hi
    have hx : level + 1 + i = level + (i + 1) := by omega
    rw [hx]
    exact hfind (i + 1) (by omega)
  have hbnd : MAX_PATH - ([] : List Char).length - 1 ≠ 0 := by decide
  simp only [peres_build_loop, hde]
  cases hstr : de.nameIsString with
  | true =>
    simp only [if_pos rfl]
    cases hrs : ctx.resStrings de.nameOffset with
    | none => simp
    | some ds =>
      apply build_loop_ne_crash_of_ne_nil ctx d f (level + 1)
      · exact take_ne_nil_of_ne_nil _ _ (by simp) hbnd
      · exact hshift
  | false =>
    rw [if_neg (by decide : ¬(false = true))]
    apply build_loop_ne_crash_of_ne_nil ctx d f (level + 1)
    · cases hlk : ctx.entryLookup de.nameOffset with
      | some info =>
        by_cases h1 : level = 1
        · simp only [hlk, h1, if_pos rfl]
          exact take_ne_nil_of_ne_nil _ _
            (take_ne_nil_of_ne_nil _ _ (by simp) (by decide)) hbnd
        · simp only [hlk, if_neg h1]
          exact take_ne_nil_of_ne_nil _ _
            (take_ne_nil_of_ne_nil _ _ (by simp) (by decide)) hbnd
      | none =>
        simp only [hlk]
        exact take_ne_nil_of_ne_nil _ _
          (take_ne_nil_of_ne_nil _ _ (by simp) (by decide)) hbnd
    · exact hshift

theorem build_no_crash (ctx : PeCtx) (d : NodeData)
    (h1 : (pe_resource_find_parent_node_by_type_and_level d 1).isSome = true)
    (h2 : (pe_resource_find_parent_node_by_type_and_level d 2).isSome = true)
    (h3 : (pe_resource_find_parent_node_by_type_and_level d 3).isSome = true)
    (hl : d.dirLevel = 3) :
    peres_build_node_filename ctx d MAX_PATH ≠ BuildResult.crash := by
  unfold peres_build_node_filename
  rw [hl]
  apply build_loop_start_ne_crash ctx d 3 1 (by omega)
  intro i hi
  interval_cases i
  · simpa using h1
  · simpa using h2
  · simpa using h3

/-- Category directory chosen by the saver, characterised: it is derived
before and independently of the extraction-mode branch. -/
theorem save_dirPart_char (ctx : PeCtx) (d : NodeData) (m : Bool)
    (h3 : (pe_resource_find_parent_node_by_type_and_level d 3).isSome = true) :
    (peres_save_resource ctx d m).outcome.dirPart
      = if (d.type = NodeType.dataEntry ∧ d.dirLevel = 3)
            ∧ ctx.canRead (ctx.rva2ofs d.dataEntry.offsetToData) d.dataEntry.size = true
        then (pe_resource_find_parent_node_by_type_and_level d 1).map
              (fun f1 => peres_dir_name (ctx.entryLookup f1.name))
        else none := by
  by_cases hA : d.type = NodeType.dataEntry ∧ d.dirLevel = 3
  case neg =>
    rw [peres_save_resource, if_pos hA]
    simp [SaveOutcome.dirPart, hA]
  case pos =>
    rw [peres_save_resource, if_neg (not_not_intro hA)]
    by_cases hR : ctx.canRead (ctx.rva2ofs d.dataEntry.offsetToData) d.dataEntry.size = true
    case neg =>
      rw [if_pos hR]
      simp [SaveOutcome.dirPart, hA, hR]
    case pos =>
      rw [if_neg (not_not_intro hR), if_pos ⟨hA, hR⟩]
      cases h1 : pe_resource_find_parent_node_by_type_and_level d 1 with
      | none => simp [SaveOutcome.dirPart]
      | some f1 =>
        cases h2 : pe_resource_find_parent_node_by_type_and_level d 2 with
        | none => simp [SaveOutcome.dirPart]
        | some nn =>
          cases m with
          | false =>
            by_cases hf : ctx.fopenOk (peres_relative_file_name
                (peres_dir_name (ctx.entryLookup f1.name))
                (Nat.repr nn.nameOffset ++ peres_extension (ctx.entryLookup f1.name))) = true
              <;> simp [hf, SaveOutcome.dirPart]
          | true =>
            have hb := build_no_crash ctx d (by simp [h1]) (by simp [h2]) h3 hA.2
            cases hbuild : peres_build_node_filename ctx d MAX_PATH with
            | crash => exact absurd hbuild hb
            | ok fn =>
              by_cases hf : ctx.fopenOk (peres_relative_file_name
                  (peres_dir_name (ctx.entryLookup f1.name))
                  (fn ++ peres_extension (ctx.entryLookup f1.name))) = true
                <;> simp [hf, SaveOutcome.dirPart]

/-- Claim C6: for every data-entry leaf (with its level-3 ancestor present, as
in every well-formed three-level tree), named-mode and default-mode extraction
derive the same category directory — the directory does not depend on the
extraction mode. -/
theorem category_dir_mode_independent (ctx : PeCtx) (d : NodeData) (m1 m2 : Bool)
    (h3 : (pe_resource_find_parent_node_by_type_and_level d 3).isSome = true) :
    (peres_save_resource ctx d m1).outcome.dirPart
      = (peres_save_resource ctx d m2).outcome.dirPart := by
  rw [save_dirPart_char ctx d m1 h3, save_dirPart_char ctx d m2 h3]

/-- Witness for C6 on a concrete node and context. -/
theorem category_dir_mode_independent_witness :
    (pe_resource_find_parent_node_by_type_and_level dataNode0 3).isSome = true
    ∧ (peres_save_resource ctxSave dataNode0 true).outcome.dirPart
        = (peres_save_resource ctxSave dataNode0 false).outcome.dirPart :=
  ⟨by decide, category_dir_mode_independent ctxSave dataNode0 true false (by decide)⟩

/-- Inversion of a successful save: where the directory and file name of a
`saved` outcome come from. -/
theorem saved_inversion (ctx : PeCtx) (d : NodeData) (m : Bool) (dn fn : String)
    (hs : (peres_save_resource ctx d m).outcome = SaveOutcome.saved dn fn) :
    (peres_save_resource ctx d m).ensuredDirs = [g_resourceDir, dn]
    ∧ ∃ f1, pe_resource_find_parent_node_by_type_and_level d 1 = some f1
        ∧ dn = peres_dir_name (ctx.entryLookup f1.name)
        ∧ ∃ stem, fn = stem ++ peres_extension (ctx.entryLookup f1.name)
          ∧ (m = false →
              ∃ nn, pe_resource_find_parent_node_by_type_and_level d 2 = some nn
                ∧ stem = Nat.repr nn.nameOffset) := by
  by_cases hA : d.type = NodeType.dataEntry ∧ d.dirLevel = 3
  case neg =>
    rw [peres_save_resource, if_pos hA] at hs ⊢
    simp at hs
  case pos =>
    rw [peres_save_resource, if_neg (not_not_intro hA)] at hs ⊢
    by_cases hR : ctx.canRead (ctx.rva2ofs d.dataEntry.offsetToData) d.dataEntry.size = true
    case neg =>
      rw [if_pos hR] at hs ⊢
      simp at hs
    case pos =>
      rw [if_neg (not_not_intro hR)] at hs ⊢
      cases h1 : pe_resource_find_parent_node_by_type_and_level d 1 with
      | none =>
        rw [h1] at hs
        simp at hs
      | some f1 =>
        rw [h1] at hs
        cases h2 : pe_resource_find_parent_node_by_type_and_level d 2 with
        | none =>
          rw [h2] at hs
          simp at hs
        | some nn =>
          rw [h2] at hs
          cases m with
          | false =>
            by_cases hf : ctx.fopenOk (peres_relative_file_name
                (peres_dir_name (ctx.entryLookup f1.name))
                (Nat.repr nn.nameOffset ++ peres_extension (ctx.entryLookup f1.name))) = true
            · simp only [hf, Bool.false_eq_true, if_neg, if_pos, reduceCtorEq,
                ite_false, ite_true] at hs
              simp only [SaveOutcome.saved.injEq] at hs
              obtain ⟨hdn, hfn⟩ := hs
              subst hdn; subst hfn
              refine ⟨by simp [hf], f1, rfl, rfl, Nat.repr nn.nameOffset, rfl,
                fun _ => ⟨nn, rfl, rfl⟩⟩
            · simp [hf] at hs
          | true =>
            cases hbuild : peres_build_node_filename ctx d MAX_PATH with
            | crash =>
              rw [hbuild] at hs
              simp at hs
            | ok stem =>
              rw [hbuild] at hs
              by_cases hf : ctx.fopenOk (peres_relative_file_name
                  (peres_dir_name (ctx.entryLookup f1.name))
                  (stem ++ peres_extension (ctx.entryLookup f1.name))) = true
              · simp only [hf, if_pos, ite_true] at hs
                simp only [SaveOutcome.saved.injEq] at hs
                obtain ⟨hdn, hfn⟩ := hs
                subst hdn; subst hfn
                refine ⟨by simp [hf], f1, rfl, rfl, stem, rfl, fun hm => by cases hm⟩
              · simp [hf] at hs

/-- Claim C7 fails as stated: for a level-1 type id absent from the
well-known table the saver derives no fallback-named category subdirectory —
the "category directory" is the base output directory itself, so the file
lands directly in the base directory (both ensured directories are the
base). -/
theorem unknown_type_saved_in_base_dir :
    peres_save_resource ctxSave dataNode0 false
      = ⟨SaveOutcome.saved g_resourceDir "7.bin", [g_resourceDir, g_resourceDir]⟩ := by
  decide

/-- Claim C7 (amended): the saver ensures the base output directory and then
the category directory, and writes the file inside the latter; when the
level-1 type id is in the well-known table the category directory is
`g_resourceDir/dir_name` (through the 100-byte buffer), but when the id is
not in the table there is no fallback-named subdirectory — the category
directory is the base directory itself (the generic fallback applies only to
the `.bin` extension). -/
theorem ensured_dirs_of_saved (ctx : PeCtx) (d : NodeData) (m : Bool)
    (dn fn : String)
    (hs : (peres_save_resource ctx d m).outcome = SaveOutcome.saved dn fn) :
    (peres_save_resource ctx d m).ensuredDirs = [g_resourceDir, dn]
    ∧ ∃ f1, pe_resource_find_parent_node_by_type_and_level d 1 = some f1
        ∧ ((∃ info, ctx.entryLookup f1.name = some info
              ∧ dn = String.mk ((g_resourceDir ++ "/" ++ info.dir_name).data.take 99))
           ∨ (ctx.entryLookup f1.name = none ∧ dn = g_resourceDir)) := by
  obtain ⟨hdirs, f1, h1, hdn, -⟩ := saved_inversion ctx d m dn fn hs
  refine ⟨hdirs, f1, h1, ?_⟩
  cases hlk : ctx.entryLookup f1.name with
  | some info =>
    rw [hlk] at hdn
    exact Or.inl ⟨info, rfl, hdn⟩
  | none =>
    rw [hlk] at hdn
    refine Or.inr ⟨rfl, ?_⟩
    rw [hdn]
    decide

/-- Witness for C7 (amended) at a concrete unknown-type save. -/
theorem ensured_dirs_of_saved_witness :
    (peres_save_resource ctxSave dataNode0 false).outcome
        = SaveOutcome.saved g_resourceDir "7.bin"
    ∧ ((peres_save_resource ctxSave dataNode0 false).ensuredDirs
          = [g_resourceDir, g_resourceDir]
       ∧ ∃ f1, pe_resource_find_parent_node_by_type_and_level dataNode0 1 = some f1
           ∧ ((∃ info, ctxSave.entryLookup f1.name = some info
                 ∧ g_resourceDir
                     = String.mk ((g_resourceDir ++ "/" ++ info.dir_name).data.take 99))
              ∨ (ctxSave.entryLookup f1.name = none ∧ g_resourceDir = g_resourceDir))) :=
  ⟨by decide,
    ensured_dirs_of_saved ctxSave dataNode0 false g_resourceDir "7.bin" (by decide)⟩

/-! String cancellation, used for filename distinctness. -/

theorem string_append_right_cancel {a b c : String} (h : a ++ c = b ++ c) : a = b := by
  apply String.ext
  have hd := congrArg String.data h
  simp only [String.data_append] at hd
  exact List.append_cancel_right hd

theorem string_append_left_cancel {a b c : String} (h : c ++ a = c ++ b) : a = b := by
  apply String.ext
  have hd := congrArg String.data h
  simp only [String.data_append] at hd
  exact List.append_cancel_left hd

/-- Claim C8: two data-entry leaves whose level-2 numeric identifiers differ
get two distinct default-mode filenames (the identifier is the decimal stem
and the extension rule — same within one category — appends the same suffix),
so their output paths in the shared category directory cannot collide. -/
theorem default_filenames_distinct (ctx : PeCtx) (d1 d2 : NodeData)
    (f11 f12 nn1 nn2 : DirectoryEntryU0) (dn fn1 fn2 : String)
    (h11 : pe_resource_find_parent_node_by_type_and_level d1 1 = some f11)
    (h12 : pe_resource_find_parent_node_by_type_and_level d1 2 = some nn1)
    (h21 : pe_resource_find_parent_node_by_type_and_level d2 1 = some f12)
    (h22 : pe_resource_find_parent_node_by_type_and_level d2 2 = some nn2)
    (hext : peres_extension (ctx.entryLookup f11.name)
        = peres_extension (ctx.entryLookup f12.name))
    (hne : nn1.nameOffset ≠ nn2.nameOffset)
    (hs1 : (peres_save_resource ctx d1 false).outcome = SaveOutcome.saved dn fn1)
    (hs2 : (peres_save_resource ctx d2 false).outcome = SaveOutcome.saved dn fn2) :
    fn1 ≠ fn2 ∧ dn ++ "/" ++ fn1 ≠ dn ++ "/" ++ fn2 := by
  obtain ⟨-, f1a, h1a, -, stem1, hfn1, hdm1⟩ := saved_inversion ctx d1 false dn fn1 hs1
  obtain ⟨-, f1b, h1b, -, stem2, hfn2, hdm2⟩ := saved_inversion ctx d2 false dn fn2 hs2
  obtain ⟨nn1a, h2a, hstem1⟩ := hdm1 rfl
  obtain ⟨nn2a, h2b, hstem2⟩ := hdm2 rfl
  have hf1 : f1a = f11 := Option.some.inj (h1a.symm.trans h11)
  have hf2 : f1b = f12 := Option.some.inj (h1b.symm.trans h21)
  have hn1 : nn1a = nn1 := Option.some.inj (h2a.symm.trans h12)
  have hn2 : nn2a = nn2 := Option.some.inj (h2b.symm.trans h22)
  have hfn1' : fn1
      = Nat.repr nn1.nameOffset ++ peres_extension (ctx.entryLookup f12.name) := by
    rw [hfn1, hstem1, hn1, hf1, hext]
  have hfn2' : fn2
      = Nat.repr nn2.nameOffset ++ peres_extension (ctx.entryLookup f12.name) := by
    rw [hfn2, hstem2, hn2, hf2]
  rw [hfn1', hfn2']
  have hfn : Nat.repr nn1.nameOffset ++ peres_extension (ctx.entryLookup f12.name)
      ≠ Nat.repr nn2.nameOffset ++ peres_extension (ctx.entryLookup f12.name) := by
    intro hEq
    exact hne (nat_repr_injective (string_append_right_cancel hEq))
  refine ⟨hfn, fun hEq => hfn (string_append_left_cancel hEq)⟩

/-- Witness for C8: name ids 7 and 8 under the same unknown type. -/
theorem default_filenames_distinct_witness :
    pe_resource_find_parent_node_by_type_and_level dataNode0 1 = some ⟨5, false⟩
    ∧ pe_resource_find_parent_node_by_type_and_level dataNode0 2 = some ⟨7, false⟩
    ∧ pe_resource_find_parent_node_by_type_and_level dataNode1 1 = some ⟨5, false⟩
    ∧ pe_resource_find_parent_node_by_type_and_level dataNode1 2 = some ⟨8, false⟩
    ∧ (peres_save_resource ctxSave dataNode0 false).outcome
        = SaveOutcome.saved "resources" "7.bin"
    ∧ (peres_save_resource ctxSave dataNode1 false).outcome
        = SaveOutcome.saved "resources" "8.bin"
    ∧ ("7.bin" ≠ "8.bin"
        ∧ "resources" ++ "/" ++ "7.bin" ≠ "resources" ++ "/" ++ "8.bin") :=
  ⟨rfl, rfl, rfl, rfl, by decide, by decide,
    default_filenames_distinct ctxSave dataNode0 dataNode1 ⟨5, false⟩ ⟨5, false⟩
      ⟨7, false⟩ ⟨8, false⟩ "resources" "7.bin" "8.bin"
      rfl rfl rfl rfl rfl (by decide) (by decide) (by decide)⟩

/-- A data-entry node at `dirLevel` 1 with an empty ancestor map: the level-1
ancestor lookup yields no node. -/
def nodeNoParents : NodeData :=
  ⟨NodeType.dataEntry, 1, ⟨0, 0, 0, 0, 0, 0⟩, ⟨0, false⟩, ⟨0, []⟩, ⟨0, 4, 0, 0⟩, []⟩

/-- Claim C3 fails as stated: when the required ancestor cannot be located,
the path builder does not return the (empty) accumulated path — it
dereferences the NULL lookup result, modelled as `crash`. -/
theorem build_crashes_on_missing_ancestor :
    peres_build_node_filename ctxNoRead nodeNoParents MAX_PATH = BuildResult.crash := by
  rfl

/-- Claim C3 (amended): a failed string-read bounds check makes the path
builder abort early with the path accumulated so far (empty at the first
level); a missing ancestor is not handled — the NULL lookup result is
dereferenced (crash); only the saver's separately checked level-2 lookup
abandons the operation for that node alone (one diagnostic, no file). -/
theorem build_missing_ancestor_behaviour (ctx : PeCtx) (d : NodeData)
    (hd : 1 ≤ d.dirLevel) :
    (pe_resource_find_parent_node_by_type_and_level d 1 = none →
      peres_build_node_filename ctx d MAX_PATH = BuildResult.crash)
    ∧ (∀ de, pe_resource_find_parent_node_by_type_and_level d 1 = some de →
        de.nameIsString = true → ctx.resStrings de.nameOffset = none →
        peres_build_node_filename ctx d MAX_PATH = BuildResult.ok "")
    ∧ (∀ m f1, d.type = NodeType.dataEntry → d.dirLevel = 3 →
        ctx.canRead (ctx.rva2ofs d.dataEntry.offsetToData) d.dataEntry.size = true →
        pe_resource_find_parent_node_by_type_and_level d 1 = some f1 →
        pe_resource_find_parent_node_by_type_and_level d 2 = none →
        (peres_save_resource ctx d m).outcome
            = SaveOutcome.noParent (peres_dir_name (ctx.entryLookup f1.name))
          ∧ (peres_save_resource ctx d m).outcome.written = none
          ∧ (peres_save_resource ctx d m).outcome.diagnostics = 1) := by
  obtain ⟨k, hk⟩ : ∃ k, d.dirLevel = k + 1 := ⟨d.dirLevel - 1, by omega⟩
  refine ⟨?_, ?_, ?_⟩
  · intro h1
    unfold peres_build_node_filename
    rw [hk]
    simp [peres_build_loop, h1]
  · intro de h1 hstr hrs
    unfold peres_build_node_filename
    rw [hk]
    simp only [peres_build_loop, h1, hstr, if_pos rfl, hrs]
    rw [if_pos trivial]
  · intro m f1 hT hL hR h1 h2
    rw [peres_save_resource, if_neg (not_not_intro ⟨hT, hL⟩), if_neg (not_not_intro hR),
      h1, h2]
    exact ⟨rfl, rfl, rfl⟩

/-- Witness for C3 (amended): the missing-ancestor branch at a concrete
node. -/
theorem build_missing_ancestor_witness :
    1 ≤ nodeNoParents.dirLevel
    ∧ peres_build_node_filename ctxNoRead nodeNoParents MAX_PATH = BuildResult.crash :=
  ⟨by decide, (build_missing_ancestor_behaviour ctxNoRead nodeNoParents (by decide)).1 rfl⟩

/-! Version decoding on a concrete malformed tree. -/

/-- A version data-entry leaf (level 3), data at RVA `ofs`, size 4. -/
def verLeafNode (ofs : Nat) : NodeData :=
  ⟨NodeType.dataEntry, 3, ⟨0, 0, 0, 0, 0, 0⟩, ⟨0, false⟩, ⟨0, []⟩, ⟨ofs, 4, 0, 0⟩, []⟩

/-- The level-1 `RT_VERSION` directory entry. -/
def verDirNode : NodeData :=
  ⟨NodeType.directoryEntry, 1, ⟨0, 0, 0, 0, 0, 0⟩, ⟨16, false⟩, ⟨0, []⟩, ⟨0, 0, 0, 0⟩, []⟩

/-- A version subtree with two leaves: the first leaf's translated range
(file offset 132 after the 32-byte skip) fails the bounds check, the second
leaf's (offset 232) passes. -/
def verTree : RTree :=
  RTree.node verDirNode
    (RTree.node (verLeafNode 100) RTree.nil
      (RTree.node (verLeafNode 200) RTree.nil RTree.nil)) RTree.nil

/-- Context for `verTree`: identity offset translation; reads succeed only
from file offset 232 on. -/
def ctxVer : PeCtx :=
  ⟨fun o => o, fun off _ => decide (232 ≤ off), fun _ => none, fun _ => none,
    fun _ => true, fun _ => ⟨0x00010002, 0x00030004, 0x00010002, 0x00030004⟩⟩

/-- Claim C4 is contradicted by the code: when the first leaf's bounds check
fails, `peres_show_version` emits the warning but returns from the whole
function — the second, perfectly readable leaf (second conjunct) is never
decoded, and neither search result list is released (`deallocCount = 0`),
whereas the claim expects only that leaf to be skipped and both lists to be
released. -/
theorem version_bounds_failure_aborts_all :
    peres_show_version ctxVer verTree = ⟨[], 1, 0, true⟩
    ∧ ctxVer.canRead (32 + ctxVer.rva2ofs 200) 4 = true := by
  constructor
  · decide
  · decide

end Peres
